import Mathlib

/-!
Shallow embedding of the Surot extinction map
(`src/synthpop/_modules/extinction/surot.py`).

Numbers are modelled as rationals.  `np.digitize(x, bins)` (with its default
`right=False`) on a monotonically increasing `bins` returns the number of
entries of `bins` that are `<= x`; we embed it as a `countP`.  `scipy`'s
`cdist(...).argmin()` returns the first index attaining the minimal Euclidean
distance; since the square root is strictly monotone, the first index of the
minimal squared distance is the same index, so distances are embedded squared
to stay inside the rationals.
-/

namespace Surot

/-- The stride-4 slice `a[5::4]` of a flat record, already dropped to start 5:
takes every fourth element of a list. -/
def strided4 : List ℚ → List ℚ
  | [] => []
  | a :: rest => a :: strided4 (rest.drop 3)
  termination_by l => l.length
  decreasing_by
    simp only [List.length_cons]
    have := List.length_drop 3 rest
    omega

/-- The far-edge sequence `self.sightline[5::4]` of a flat sightline record. -/
def farEdges (sightline : List ℚ) : List ℚ := strided4 (sightline.drop 5)

/-- Embedding of `np.digitize(x, bins)` (default `right=False`) for
monotonically increasing `bins`: the number of entries `<= x`. -/
def digitize (x : ℚ) (bins : List ℚ) : ℕ := bins.countP (fun e => decide (e ≤ x))

/-- Mutable state of a `Surot` instance (the fields touched by the claims). -/
structure State where
  l_deg : Option ℚ
  b_deg : Option ℚ
  radius_ind : ℤ
  near_bin_edge : ℚ
  near_bin_edge_err : ℚ
  extinction_in_map : ℚ
  extinction_in_map_err : ℚ
  sightline : List ℚ
  sightline_l_deg : ℚ
  sightline_b_deg : ℚ
  chi2_allstars : ℚ
  chi2_giants : ℚ
  number_of_bins : ℚ
  A_Ks : ℚ
  far_bin_edge : ℚ
  deriving Repr, DecidableEq

/-- A fresh instance: every placeholder is `None` / zero. -/
def initState : State :=
  { l_deg := none, b_deg := none, radius_ind := 0,
    near_bin_edge := 0, near_bin_edge_err := 0,
    extinction_in_map := 0, extinction_in_map_err := 0,
    sightline := [], sightline_l_deg := 0, sightline_b_deg := 0,
    chi2_allstars := 0, chi2_giants := 0, number_of_bins := 0,
    A_Ks := 0, far_bin_edge := 0 }

/-- The bin index resolved by `update_extinction_in_map`:
`np.digitize(radius, self.sightline[5::4]) - 1`. -/
def resolveInd (s : State) (radius : ℚ) : ℤ :=
  (digitize radius (farEdges s.sightline) : ℤ) - 1

/-- Embedding of `Surot.update_extinction_in_map(radius, force)`.  Returns the
`0`/`1` result together with the new state.  The guarded reads
`self.sightline[5 + radius_ind * 4] if radius_ind > 0 else 0` (and 6/7/8
likewise) are embedded with `List.getD`; the guard keeps every performed index
nonnegative and, on well-formed records, in range, matching the Python
behaviour. -/
def update_extinction_in_map (s : State) (radius : ℚ) (force : Bool) :
    ℕ × State :=
  let radius_ind := resolveInd s radius
  if radius_ind = s.radius_ind ∧ force = false then (0, s)
  else
    (1, { s with
      radius_ind := radius_ind,
      near_bin_edge :=
        if radius_ind > 0 then s.sightline.getD (5 + radius_ind * 4).toNat 0 else 0,
      near_bin_edge_err :=
        if radius_ind > 0 then s.sightline.getD (7 + radius_ind * 4).toNat 0 else 0,
      extinction_in_map_err :=
        if radius_ind > 0 then s.sightline.getD (8 + radius_ind * 4).toNat 0 else 0,
      extinction_in_map :=
        if radius_ind > 0 then s.sightline.getD (6 + radius_ind * 4).toNat 0 else 0 })

/-- The reference grid `self.all_coords`: the first two columns of
`surot_A_Ks_table1.csv`, whose rows are the flat sightline records. -/
def allCoords (table : List (List ℚ)) : List (ℚ × ℚ) :=
  table.map (fun row => (row.getD 0 0, row.getD 1 0))

/-- `self.l_stepsize = self.all_coords[1, 0] - self.all_coords[0, 0]`. -/
def lStepsize (table : List (List ℚ)) : ℚ :=
  (table.getD 1 []).getD 0 0 - (table.getD 0 []).getD 0 0

/-- Squared Euclidean distance in (l, b) degree space. -/
def d2 (p q : ℚ × ℚ) : ℚ := (p.1 - q.1) ^ 2 + (p.2 - q.2) ^ 2

/-- Minimum of a list of rationals (0 on the empty list). -/
def listMin : List ℚ → ℚ
  | [] => 0
  | [a] => a
  | a :: b :: r => min a (listMin (b :: r))

/-- First index attaining the minimum, as `numpy`'s `argmin` does. -/
def idxMin : List ℚ → ℕ
  | [] => 0
  | [_] => 0
  | a :: b :: r => if listMin (b :: r) < a then idxMin (b :: r) + 1 else 0

/-- Longitude wraparound:
`l_deg - 360 if l_deg > (180 - l_stepsize / 2) else l_deg`. -/
def wrapL (lStep l : ℚ) : ℚ := if l > 180 - lStep / 2 then l - 360 else l

/-- The query point `cdist` is evaluated at: `(0, 0)` while `self.l_deg is
None`, otherwise the wrapped longitude with the stored latitude. -/
def queryPoint (table : List (List ℚ)) (s : State) : ℚ × ℚ :=
  match s.l_deg with
  | none => (0, 0)
  | some l => (wrapL (lStepsize table) l, s.b_deg.getD 0)

/-- `min_dist_arg`: first index of the reference coordinate pair closest to the
query point. -/
def minDistArg (table : List (List ℚ)) (s : State) : ℕ :=
  idxMin ((allCoords table).map (fun c => d2 (queryPoint table s) c))

/-- Monotonicity check `any(np.diff(self.sightline[5::4]) < 0)` on a far-edge
sequence: some successive difference is negative. -/
def hasNegDiff (edges : List ℚ) : Bool :=
  (edges.zip edges.tail).any (fun p => decide (p.2 - p.1 < 0))

/-- The repair step of `find_sightline`: if any successive far-edge difference
is negative, drop the last 4 numbers (`self.sightline[:-4]`). -/
def repair (row : List ℚ) : List ℚ :=
  if hasNegDiff (farEdges row) = true then row.take (row.length - 4) else row

/-- Embedding of `Surot.find_sightline()`: resolve the nearest reference row
(with `getline(..., min_dist_arg + 1)` being the same row, 1-indexed), then
store its repaired record in `self.sightline`. -/
def find_sightline (table : List (List ℚ)) (s : State) : State :=
  { s with sightline := repair (table.getD (minDistArg table s) []) }

/-- Embedding of `Surot.init_sightline()`. -/
def init_sightline (s : State) : State :=
  let s1 := { s with
    sightline_l_deg := s.sightline.getD 0 0,
    sightline_b_deg := s.sightline.getD 1 0,
    chi2_allstars := s.sightline.getD 2 0,
    chi2_giants := s.sightline.getD 3 0,
    number_of_bins := s.sightline.getD 4 0,
    radius_ind := (0 : ℤ),
    near_bin_edge := (0 : ℚ),
    A_Ks := (0 : ℚ),
    far_bin_edge := s.sightline.getD 5 0 }
  (update_extinction_in_map s1 s1.near_bin_edge true).2

/-- Embedding of `Surot.update_line_of_sight(l_deg, b_deg)`. -/
def update_line_of_sight (table : List (List ℚ)) (s : State) (l b : ℚ) :
    State :=
  init_sightline (find_sightline table { s with l_deg := some l, b_deg := some b })

/-! ### Helper lemmas -/

theorem getD_mem (l : List ℚ) (n : ℕ) (d : ℚ) (h : n < l.length) :
    l.getD n d ∈ l := by
  induction l generalizing n with
  | nil => simp at h
  | cons a t ih =>
    cases n with
    | zero => simp
    | succ n =>
      have := ih n (by simpa using h)
      rw [List.getD_cons_succ]
      exact List.mem_cons_of_mem a this

theorem getD_map_d2 (p : ℚ × ℚ) (l : List (ℚ × ℚ)) (n : ℕ)
    (h : n < l.length) (d : ℚ × ℚ) (d' : ℚ) :
    (l.map (fun c => d2 p c)).getD n d' = d2 p (l.getD n d) := by
  induction l generalizing n with
  | nil => simp at h
  | cons a t ih =>
    cases n with
    | zero => simp
    | succ n => simpa [List.getD_cons_succ] using ih n (by simpa using h)

theorem getD_take (l : List ℚ) (k n : ℕ) (d : ℚ) (h : n < k) :
    (l.take k).getD n d = l.getD n d := by
  induction l generalizing k n with
  | nil => simp
  | cons a t ih =>
    cases k with
    | zero => omega
    | succ k =>
      cases n with
      | zero => simp
      | succ n => simpa [List.getD_cons_succ] using ih k n (by omega)

theorem digitize_le_length (x : ℚ) (edges : List ℚ) :
    digitize x edges ≤ edges.length :=
  List.countP_le_length _

theorem digitize_lower (x : ℚ) (edges : List ℚ)
    (hs : edges.Sorted (· ≤ ·)) (k : ℕ) (hk : k < edges.length)
    (hx : edges.getD k 0 ≤ x) : k + 1 ≤ digitize x edges := by
  induction edges generalizing k with
  | nil => simp at hk
  | cons e es ih =>
    rw [List.sorted_cons] at hs
    cases k with
    | zero =>
      simp only [List.getD_cons_zero] at hx
      simp [digitize, List.countP_cons, hx]
    | succ k =>
      have hk' : k < es.length := by simpa using hk
      have hx' : es.getD k 0 ≤ x := by simpa [List.getD_cons_succ] using hx
      have hih := ih hs.2 k hk' hx'
      have he : e ≤ x :=
        le_trans (hs.1 _ (getD_mem es k 0 hk')) hx'
      have hd : (decide (e ≤ x)) = true := decide_eq_true he
      simp [digitize, List.countP_cons, hd] at hih ⊢
      omega

theorem digitize_upper (x : ℚ) (edges : List ℚ)
    (hs : edges.Sorted (· ≤ ·)) (k : ℕ) (hk : k < edges.length)
    (hx : x < edges.getD k 0) : digitize x edges ≤ k := by
  induction edges generalizing k with
  | nil => simp [digitize]
  | cons e es ih =>
    rw [List.sorted_cons] at hs
    cases k with
    | zero =>
      simp only [List.getD_cons_zero] at hx
      have : ∀ a ∈ e :: es, ¬ a ≤ x := by
        intro a ha
        rcases List.mem_cons.mp ha with h | h
        · subst h; exact not_le.mpr hx
        · exact not_le.mpr (lt_of_lt_of_le hx (hs.1 a h))
      simp only [digitize]
      have : (e :: es).countP (fun e => decide (e ≤ x)) = 0 := by
        rw [List.countP_eq_zero]
        intro a ha
        simpa using this a ha
      omega
    | succ k =>
      have hk' : k < es.length := by simpa using hk
      have hx' : x < es.getD k 0 := by simpa [List.getD_cons_succ] using hx
      have hih := ih hs.2 k hk' hx'
      simp only [digitize, List.countP_cons] at hih ⊢
      split <;> omega

theorem listMin_le (l : List ℚ) (j : ℕ) (hj : j < l.length) :
    listMin l ≤ l.getD j 0 := by
  induction l generalizing j with
  | nil => simp at hj
  | cons a t ih =>
    cases t with
    | nil =>
      have : j = 0 := by simpa using hj
      subst this
      simp [listMin]
    | cons b r =>
      cases j with
      | zero => simp [listMin]
      | succ j =>
        have := ih j (by simpa using hj)
        simp only [listMin, List.getD_cons_succ]
        exact le_trans (min_le_right _ _) this

theorem idxMin_spec (l : List ℚ) (h : l ≠ []) :
    idxMin l < l.length ∧ l.getD (idxMin l) 0 = listMin l := by
  induction l with
  | nil => simp at h
  | cons a t ih =>
    cases t with
    | nil => simp [idxMin, listMin]
    | cons b r =>
      obtain ⟨ih1, ih2⟩ := ih (by simp)
      by_cases hc : listMin (b :: r) < a
      · refine ⟨?_, ?_⟩
        · simp only [List.length_cons] at ih1
          simp only [idxMin, if_pos hc, List.length_cons]
          omega
        · simp only [idxMin, if_pos hc, listMin, List.getD_cons_succ, ih2]
          exact (min_eq_right (le_of_lt hc)).symm
      · refine ⟨?_, ?_⟩
        · simp only [idxMin, if_neg hc, List.length_cons]
          omega
        · simp only [idxMin, if_neg hc, listMin, List.getD_cons_zero]
          exact (min_eq_left (not_lt.mp hc)).symm

theorem idxMin_is_min (l : List ℚ) (h : l ≠ []) (j : ℕ) (hj : j < l.length) :
    l.getD (idxMin l) 0 ≤ l.getD j 0 := by
  rw [(idxMin_spec l h).2]
  exact listMin_le l j hj

theorem sorted_no_neg_diff (l : List ℚ) (hs : l.Sorted (· ≤ ·)) :
    hasNegDiff l = false := by
  induction l with
  | nil => simp [hasNegDiff]
  | cons a t ih =>
    cases t with
    | nil => simp [hasNegDiff]
    | cons b r =>
      rw [List.sorted_cons] at hs
      have hab : a ≤ b := hs.1 b (by simp)
      have := ih hs.2
      simp only [hasNegDiff, List.tail_cons, List.zip_cons_cons, List.any_cons] at this ⊢
      simp only [this, Bool.or_false]
      simpa using by linarith

theorem update_preserves (s : State) (radius : ℚ) (force : Bool) :
    (update_extinction_in_map s radius force).2.sightline = s.sightline ∧
    (update_extinction_in_map s radius force).2.number_of_bins
      = s.number_of_bins := by
  simp only [update_extinction_in_map]
  split <;> simp

theorem update_post_zero (s : State) (radius : ℚ) (force : Bool)
    (hInv : s.radius_ind ≤ 0 →
      s.near_bin_edge = 0 ∧ s.near_bin_edge_err = 0 ∧
      s.extinction_in_map = 0 ∧ s.extinction_in_map_err = 0)
    (hr : resolveInd s radius ≤ 0) :
    (update_extinction_in_map s radius force).2.near_bin_edge = 0 ∧
    (update_extinction_in_map s radius force).2.near_bin_edge_err = 0 ∧
    (update_extinction_in_map s radius force).2.extinction_in_map = 0 ∧
    (update_extinction_in_map s radius force).2.extinction_in_map_err = 0 := by
  simp only [update_extinction_in_map]
  split
  · next hcond =>
    have : s.radius_ind ≤ 0 := hcond.1 ▸ hr
    simpa using hInv this
  · have hng : ¬ resolveInd s radius > 0 := not_lt.mpr hr
    simp [hng]

theorem sorted_lt_getD (l : List ℚ) (hs : l.Sorted (· < ·)) (i j : ℕ)
    (hij : i < j) (hj : j < l.length) : l.getD i 0 < l.getD j 0 := by
  induction l generalizing i j with
  | nil => simp at hj
  | cons a t ih =>
    rw [List.sorted_cons] at hs
    cases j with
    | zero => omega
    | succ j =>
      have hj' : j < t.length := by simpa using hj
      cases i with
      | zero =>
        simp only [List.getD_cons_zero, List.getD_cons_succ]
        exact hs.1 _ (getD_mem t j 0 hj')
      | succ i =>
        simp only [List.getD_cons_succ]
        exact ih hs.2 i j (by omega) hj'

/-! ### Claim theorems -/

/-- C4: cache short-circuit and frame.  If `update_extinction_in_map(radius,
force=False)` resolves `radius` to the currently cached `radius_ind`, the call
returns 0 and the whole state is unchanged; and with `force=False` the call
reports "changed" (returns 1) exactly when the resolved bin index differs from
the cached one. -/
theorem C4_cache_short_circuit (s : State) (radius : ℚ) :
    (resolveInd s radius = s.radius_ind →
      update_extinction_in_map s radius false = (0, s)) ∧
    ((update_extinction_in_map s radius false).1 = 1 ↔
      resolveInd s radius ≠ s.radius_ind) := by
  constructor
  · intro h
    simp [update_extinction_in_map, h]
  · simp only [update_extinction_in_map]
    split
    · next hc => simp [hc.1]
    · next hc =>
      simp only [Prod.fst]
      constructor
      · intro _ he
        exact hc ⟨he, by simp⟩
      · intro _
        simp

/-- Concrete state for the C4 witness: a profile with far edges `[5, 10]` and
the cursor already sitting in the bin that contains radius 7. -/
def stateC4 : State :=
  { initState with sightline := [0, 0, 0, 0, 2, 5, 0, 0, 0, 10, 0, 0, 0],
                   radius_ind := 0 }

/-- Witness for C4 at a concrete input: radius 7 resolves to the cached bin 0,
so the call returns `(0, stateC4)` unchanged. -/
theorem C4_witness : update_extinction_in_map stateC4 7 false = (0, stateC4) :=
  (C4_cache_short_circuit stateC4 7).1
    (by norm_num [resolveInd, digitize, farEdges, strided4, stateC4, initState,
          List.countP_cons])

/-- C2: zero-extinction rule at the near end.  If the resolved bin index is at
most 0 then (given the reachable-state invariant that a nonpositive cached
cursor comes with zeroed cached values) the four cached values are all zero
after the call; moreover on a profile with nondecreasing far edges whose first
far edge is strictly positive, radius exactly 0 resolves to a nonpositive
index and leaves the cached extinction value and error at zero. -/
theorem C2_zero_rule (s : State) (radius : ℚ) (force : Bool)
    (hInv : s.radius_ind ≤ 0 →
      s.near_bin_edge = 0 ∧ s.near_bin_edge_err = 0 ∧
      s.extinction_in_map = 0 ∧ s.extinction_in_map_err = 0)
    (hr : resolveInd s radius ≤ 0) :
    ((update_extinction_in_map s radius force).2.near_bin_edge = 0 ∧
     (update_extinction_in_map s radius force).2.near_bin_edge_err = 0 ∧
     (update_extinction_in_map s radius force).2.extinction_in_map = 0 ∧
     (update_extinction_in_map s radius force).2.extinction_in_map_err = 0) ∧
    ((farEdges s.sightline).Sorted (· ≤ ·) →
      0 < (farEdges s.sightline).getD 0 0 →
      resolveInd s 0 ≤ 0 ∧
      (update_extinction_in_map s 0 force).2.extinction_in_map = 0 ∧
      (update_extinction_in_map s 0 force).2.extinction_in_map_err = 0) := by
  refine ⟨update_post_zero s radius force hInv hr, ?_⟩
  intro hsorted hpos
  have hres : resolveInd s 0 ≤ 0 := by
    cases hE : farEdges s.sightline with
    | nil => simp [resolveInd, digitize, hE]
    | cons e es =>
      have hlen : 0 < (farEdges s.sightline).length := by
        rw [hE]; simp
      have := digitize_upper 0 (farEdges s.sightline) hsorted 0 hlen hpos
      simp only [resolveInd]
      omega
  have h0 := update_post_zero s 0 force hInv hres
  exact ⟨hres, h0.2.2.1, h0.2.2.2⟩

/-- Concrete state for the C2 witness: cached values already zero, cursor at
3, far edges `[5, 10]`. -/
def stateC2 : State :=
  { initState with sightline := [0, 0, 0, 0, 2, 5, 0, 1, 1, 10, 0, 2, 2],
                   radius_ind := 3 }

/-- Witness for C2 at a concrete input: radius 2 resolves below the first far
edge and all four cached values come out zero. -/
theorem C2_witness :
    (update_extinction_in_map stateC2 2 false).2.near_bin_edge = 0 ∧
    (update_extinction_in_map stateC2 2 false).2.near_bin_edge_err = 0 ∧
    (update_extinction_in_map stateC2 2 false).2.extinction_in_map = 0 ∧
    (update_extinction_in_map stateC2 2 false).2.extinction_in_map_err = 0 :=
  (C2_zero_rule stateC2 2 false (fun _ => ⟨rfl, rfl, rfl, rfl⟩)
    (by norm_num [resolveInd, digitize, farEdges, strided4, stateC2, initState,
          List.countP_cons])).1

/-- C10: negative (and generally pre-first-edge) distances are absorbed.  For
a radius strictly below the first far edge of a profile with nondecreasing far
edges, the resolved index is exactly -1, and the call either short-circuits
(returning `(0, s)`) or performs the update with every guarded profile read
replaced by zero, returning 1 with all four cached values zero; no path
rejects the input. -/
theorem C10_negative_radius (s : State) (radius : ℚ) (force : Bool)
    (hs : (farEdges s.sightline).Sorted (· ≤ ·))
    (hne : farEdges s.sightline ≠ [])
    (hr : radius < (farEdges s.sightline).getD 0 0) :
    resolveInd s radius = -1 ∧
    (update_extinction_in_map s radius force = (0, s) ∨
      ((update_extinction_in_map s radius force).1 = 1 ∧
        (update_extinction_in_map s radius force).2.near_bin_edge = 0 ∧
        (update_extinction_in_map s radius force).2.near_bin_edge_err = 0 ∧
        (update_extinction_in_map s radius force).2.extinction_in_map = 0 ∧
        (update_extinction_in_map s radius force).2.extinction_in_map_err = 0)) := by
  have hlen : 0 < (farEdges s.sightline).length := List.length_pos.mpr hne
  have hdig := digitize_upper radius (farEdges s.sightline) hs 0 hlen hr
  have hres : resolveInd s radius = -1 := by
    simp only [resolveInd]
    omega
  refine ⟨hres, ?_⟩
  simp only [update_extinction_in_map]
  split
  · left; rfl
  · right
    simp [hres]

/-- Concrete state for the C10 witness: one bin with far edge 5 and nonzero
stored values, cursor away from -1. -/
def stateC10 : State :=
  { initState with sightline := [0, 0, 0, 0, 1, 5, 3, 4, 6],
                   radius_ind := 2 }

/-- Witness for C10 at a concrete input: the negative radius -3 resolves to
-1 and the call updates to all-zero cached values. -/
theorem C10_witness :
    resolveInd stateC10 (-3) = -1 ∧
    (update_extinction_in_map stateC10 (-3) false = (0, stateC10) ∨
      ((update_extinction_in_map stateC10 (-3) false).1 = 1 ∧
        (update_extinction_in_map stateC10 (-3) false).2.near_bin_edge = 0 ∧
        (update_extinction_in_map stateC10 (-3) false).2.near_bin_edge_err = 0 ∧
        (update_extinction_in_map stateC10 (-3) false).2.extinction_in_map = 0 ∧
        (update_extinction_in_map stateC10 (-3) false).2.extinction_in_map_err = 0)) :=
  C10_negative_radius stateC10 (-3) false
    (by simp [farEdges, strided4, stateC10, initState])
    (by simp [farEdges, strided4, stateC10, initState])
    (by norm_num [farEdges, strided4, stateC10, initState])

/-- Concrete state for C3: a profile with far edges `[5, 10]`. -/
def stateC3 : State :=
  { initState with sightline := [0, 0, 0, 0, 2, 5, 0, 0, 0, 10, 0, 0, 0],
                   radius_ind := -1 }

/-- Counterexample to C3 as stated: with strictly increasing far edges
`[5, 10]`, the radius exactly equal to the far edge 10 (edge index 1) resolves
to bin index 1, while a radius strictly inside the interval `(5, 10)` ending
at that edge resolves to bin index 0 — the tie does NOT fall into the lower
bin. -/
theorem C3_counterexample :
    resolveInd stateC3 10 = 1 ∧ resolveInd stateC3 7 = 0 ∧
    ¬ resolveInd stateC3 10 = resolveInd stateC3 7 := by
  norm_num [resolveInd, digitize, farEdges, strided4, stateC3, initState,
    List.countP_cons]

/-- C3 (amended): boundary tie-break.  On a profile with strictly increasing
far edges, a radius exactly equal to the k-th far edge (0-indexed) resolves to
bin index k — the bin *above* the edge, i.e. the digitization is closed on the
lower side of the upper bin — and this is the same index as for any radius at
or above that edge that stays strictly below every later edge. -/
theorem C3_edge_in_upper_bin (s : State) (k : ℕ)
    (hs : (farEdges s.sightline).Sorted (· < ·))
    (hk : k < (farEdges s.sightline).length) :
    resolveInd s ((farEdges s.sightline).getD k 0) = (k : ℤ) ∧
    ∀ radius : ℚ, (farEdges s.sightline).getD k 0 ≤ radius →
      (∀ j : ℕ, k < j → j < (farEdges s.sightline).length →
        radius < (farEdges s.sightline).getD j 0) →
      resolveInd s radius = (k : ℤ) := by
  have hsle : (farEdges s.sightline).Sorted (· ≤ ·) :=
    hs.imp le_of_lt
  have hmain : ∀ radius : ℚ, (farEdges s.sightline).getD k 0 ≤ radius →
      (∀ j : ℕ, k < j → j < (farEdges s.sightline).length →
        radius < (farEdges s.sightline).getD j 0) →
      resolveInd s radius = (k : ℤ) := by
    intro radius h1 h2
    have hlow := digitize_lower radius (farEdges s.sightline) hsle k hk h1
    have hup : digitize radius (farEdges s.sightline) ≤ k + 1 := by
      by_cases hk1 : k + 1 < (farEdges s.sightline).length
      · exact digitize_upper radius (farEdges s.sightline) hsle (k + 1) hk1
          (h2 (k + 1) (by omega) hk1)
      · calc digitize radius (farEdges s.sightline)
            ≤ (farEdges s.sightline).length := digitize_le_length _ _
          _ ≤ k + 1 := by omega
    simp only [resolveInd]
    omega
  refine ⟨?_, hmain⟩
  exact hmain _ le_rfl (fun j hj hjl => sorted_lt_getD _ hs k j hj hjl)

/-- Witness for C3 (amended) at a concrete input: radius exactly 5 (the 0-th
far edge of `[5, 10]`) resolves to bin index 0. -/
theorem C3_witness :
    resolveInd stateC3 ((farEdges stateC3.sightline).getD 0 0) = (0 : ℤ) :=
  (C3_edge_in_upper_bin stateC3 0
    (by norm_num [farEdges, strided4, stateC3, initState, List.sorted_cons])
    (by norm_num [farEdges, strided4, stateC3, initState])).1

/-- Concrete state for the C5 counterexample: a single-bin profile with far
edge 5 whose stored extinction value (element 6 of the flat record) is 7 and
stored extinction error (element 8) is 2; the cursor sits before the first
bin. -/
def stateC5 : State :=
  { initState with sightline := [0, 0, 0, 0, 1, 5, 7, 1, 2],
                   radius_ind := -1 }

/-- Counterexample to C5 as stated: on a one-bin active profile, a radius
strictly beyond the last far edge resolves to the last valid bin (index 0),
but the zero rule for index <= 0 then caches 0 instead of the last bin's
stored extinction value 7. -/
theorem C5_counterexample :
    (5 : ℚ) < 6 ∧
    resolveInd stateC5 6 = (farEdges stateC5.sightline).length - 1 ∧
    (update_extinction_in_map stateC5 6 false).2.extinction_in_map = 0 ∧
    stateC5.sightline.getD 6 0 = 7 ∧
    ¬ (update_extinction_in_map stateC5 6 false).2.extinction_in_map
        = stateC5.sightline.getD 6 0 := by
  norm_num [update_extinction_in_map, resolveInd, digitize, farEdges, strided4,
    stateC5, initState, List.countP_cons]

/-- C5 (amended): saturation beyond the table for profiles with at least two
bins.  Any radius strictly beyond the last far edge resolves to the last bin
index, the update (when it fires) caches the last bin's stored extinction
value (element `6 + 4*(n-1)` of the flat record) and error (element
`8 + 4*(n-1)`), and every larger radius resolves identically. -/
theorem C5_saturation (s : State) (radius radius' : ℚ) (force : Bool)
    (hs : (farEdges s.sightline).Sorted (· ≤ ·))
    (hn : 2 ≤ (farEdges s.sightline).length)
    (hr : (farEdges s.sightline).getD ((farEdges s.sightline).length - 1) 0
      < radius)
    (hr' : (farEdges s.sightline).getD ((farEdges s.sightline).length - 1) 0
      < radius')
    (hpath : force = true ∨ resolveInd s radius ≠ s.radius_ind) :
    resolveInd s radius = ((farEdges s.sightline).length : ℤ) - 1 ∧
    (update_extinction_in_map s radius force).2.extinction_in_map
      = s.sightline.getD (6 + ((farEdges s.sightline).length - 1) * 4) 0 ∧
    (update_extinction_in_map s radius force).2.extinction_in_map_err
      = s.sightline.getD (8 + ((farEdges s.sightline).length - 1) * 4) 0 ∧
    resolveInd s radius' = resolveInd s radius := by
  have hres : ∀ x : ℚ,
      (farEdges s.sightline).getD ((farEdges s.sightline).length - 1) 0 < x →
      resolveInd s x = ((farEdges s.sightline).length : ℤ) - 1 := by
    intro x hx
    have hlow := digitize_lower x (farEdges s.sightline) hs
      ((farEdges s.sightline).length - 1) (by omega) (le_of_lt hx)
    have hup := digitize_le_length x (farEdges s.sightline)
    simp only [resolveInd]
    omega
  have h1 := hres radius hr
  have h2 := hres radius' hr'
  refine ⟨h1, ?_, ?_, h2.trans h1.symm⟩ <;>
  · simp only [update_extinction_in_map]
    split
    · next hcond =>
      rcases hpath with hf | hne
      · rw [hf] at hcond
        simp at hcond
      · exact absurd hcond.1 hne
    · have hpos : resolveInd s radius > 0 := by omega
      simp only [hpos, if_pos]
      congr 1
      omega

/-- Concrete state for the C5 witness: two bins with far edges `[5, 10]` and
nonzero stored values in the last bin. -/
def stateC5w : State :=
  { initState with sightline := [0, 0, 0, 0, 2, 5, 7, 1, 2, 10, 9, 1, 3],
                   radius_ind := 0 }

/-- Witness for C5 (amended) at a concrete input: radius 11 (beyond the last
far edge 10) resolves to bin index 1 and caches the last bin's stored value 9
and error 3, just like radius 12. -/
theorem C5_witness :
    resolveInd stateC5w 11 = ((farEdges stateC5w.sightline).length : ℤ) - 1 ∧
    (update_extinction_in_map stateC5w 11 false).2.extinction_in_map
      = stateC5w.sightline.getD
          (6 + ((farEdges stateC5w.sightline).length - 1) * 4) 0 ∧
    (update_extinction_in_map stateC5w 11 false).2.extinction_in_map_err
      = stateC5w.sightline.getD
          (8 + ((farEdges stateC5w.sightline).length - 1) * 4) 0 ∧
    resolveInd stateC5w 12 = resolveInd stateC5w 11 :=
  C5_saturation stateC5w 11 12 false
    (by norm_num [farEdges, strided4, stateC5w, initState, List.sorted_cons])
    (by norm_num [farEdges, strided4, stateC5w, initState])
    (by norm_num [farEdges, strided4, stateC5w, initState])
    (by norm_num [farEdges, strided4, stateC5w, initState])
    (Or.inr (by norm_num [resolveInd, digitize, farEdges, strided4, stateC5w,
      initState, List.countP_cons]))

/-- Concrete row for C6: three bins with far edges `[1, 2, 3/2]` (the last
edge decreases). -/
def rowC6 : List ℚ := [0, 0, 0, 0, 3, 1, 0, 0, 0, 2, 0, 0, 0, 3/2, 0, 0, 0]

/-- C6: monotonicity repair.  `find_sightline` stores the repaired row for the
resolved index; if some successive difference of the stride-4 far-edge
sequence starting at element 5 is negative, the last 4 numbers (the final bin)
are dropped; a row with nondecreasing far edges is stored unmodified; and the
concrete profile with far edges `[1, 2, 3/2]` is stored with far edges
`[1, 2]` only. -/
theorem C6_monotonicity_repair (table : List (List ℚ)) (s : State)
    (row : List ℚ) :
    ((find_sightline table s).sightline
      = repair (table.getD (minDistArg table s) [])) ∧
    (hasNegDiff (farEdges row) = true →
      repair row = row.take (row.length - 4)) ∧
    ((farEdges row).Sorted (· ≤ ·) → repair row = row) ∧
    farEdges (repair rowC6) = [1, 2] := by
  refine ⟨rfl, ?_, ?_, ?_⟩
  · intro h
    simp [repair, h]
  · intro h
    simp [repair, sorted_no_neg_diff _ h]
  · have ht : rowC6.take (rowC6.length - 4)
        = [0, 0, 0, 0, 3, 1, 0, 0, 0, 2, 0, 0, 0] := by rfl
    norm_num [repair, hasNegDiff, farEdges, strided4, rowC6, ht]

/-- Witness for C6 at a concrete input: the row whose far edges are
`[1, 2, 3/2]` has a negative successive difference, so repair drops its last
4 entries. -/
theorem C6_witness : repair rowC6 = rowC6.take (rowC6.length - 4) :=
  (C6_monotonicity_repair [] initState rowC6).2.1
    (by norm_num [hasNegDiff, farEdges, strided4, rowC6])

/-- C9 (implicit): stale bin count after repair.  `init_sightline` records
`number_of_bins` from element 4 of the (possibly repaired) record — which the
tail-only repair leaves equal to element 4 of the raw row — so after a
repaired load the stored flat profile has length `5 + 4*(n-1)` while
`number_of_bins` still reports the pre-repair count `n`. -/
theorem C9_stale_bin_count (s : State) (row : List ℚ) (n : ℕ)
    (hlen : row.length = 5 + 4 * n) (h1 : 1 ≤ n)
    (hrow4 : row.getD 4 0 = (n : ℚ))
    (hneg : hasNegDiff (farEdges row) = true) :
    (init_sightline { s with sightline := repair row }).number_of_bins
      = (n : ℚ) ∧
    (init_sightline { s with sightline := repair row }).sightline.length
      = 5 + 4 * (n - 1) := by
  have hrep : repair row = row.take (row.length - 4) := by
    simp [repair, hneg]
  have hlen' : (repair row).length = 5 + 4 * (n - 1) := by
    rw [hrep, List.length_take]
    omega
  have hget4 : (repair row).getD 4 0 = (n : ℚ) := by
    rw [hrep, getD_take _ _ _ _ (by omega)]
    exact hrow4
  simp only [init_sightline]
  refine ⟨?_, ?_⟩
  · rw [(update_preserves _ _ _).2]
    simpa using hget4
  · rw [(update_preserves _ _ _).1]
    simpa using hlen'

/-- Concrete row for the C9 witness: two bins with decreasing far edges
`[2, 1]` and `number_of_bins = 2` recorded at element 4. -/
def rowC9 : List ℚ := [0, 0, 0, 0, 2, 2, 0, 0, 0, 1, 0, 0, 0]

/-- Witness for C9 at a concrete input: after the repair drops the final bin,
the stored record has length 9 = 5 + 4*(2-1) but `number_of_bins` is still
2. -/
theorem C9_witness :
    (init_sightline { initState with sightline := repair rowC9 }).number_of_bins
      = ((2 : ℕ) : ℚ) ∧
    (init_sightline { initState with
        sightline := repair rowC9 }).sightline.length = 5 + 4 * (2 - 1) :=
  C9_stale_bin_count initState rowC9 2 (by norm_num [rowC9]) (by norm_num)
    (by norm_num [rowC9])
    (by norm_num [hasNegDiff, farEdges, strided4, rowC9])

/-- Reference grid for the C7 counterexample: rows at longitudes -300 and 100,
so `l_stepsize = 400` and the wrap threshold is `180 - 200 = -20`. -/
def tableC7 : List (List ℚ) := [[-300, 0], [100, 0]]

/-- State querying longitude 359.9 against `tableC7`. -/
def stateC7a : State :=
  { initState with l_deg := some (3599/10), b_deg := some 0 }

/-- State querying longitude -0.1 against `tableC7`. -/
def stateC7b : State :=
  { initState with l_deg := some (-1/10), b_deg := some 0 }

/-- Counterexample to C7 as stated: with `l_stepsize = 400` the claim's
proviso `359.9 > 180 - l_stepsize/2` holds, yet -0.1 also exceeds the
threshold and wraps to -360.1, so the two queries resolve to different
reference row indices (1 versus 0). -/
theorem C7_counterexample :
    180 - lStepsize tableC7 / 2 < 3599/10 ∧
    minDistArg tableC7 stateC7a = 1 ∧
    minDistArg tableC7 stateC7b = 0 ∧
    ¬ minDistArg tableC7 stateC7a = minDistArg tableC7 stateC7b := by
  norm_num [minDistArg, allCoords, queryPoint, wrapL, lStepsize, d2, idxMin,
    listMin, tableC7, stateC7a, stateC7b, initState]

/-- C7 (amended): longitude wraparound equivalence.  Every query longitude
exceeding `180 - l_stepsize/2` has 360 subtracted before the distance
computation; and provided -0.1 itself does not exceed that threshold (i.e.
`l_stepsize <= 360.2`), queries at longitudes 359.9 and -0.1 with the same
latitude compute distances against the identical query point and resolve to
the same reference row index. -/
theorem C7_wraparound (table : List (List ℚ)) (s : State) (b : ℚ)
    (hcap : -1/10 ≤ 180 - lStepsize table / 2) :
    (∀ l : ℚ, 180 - lStepsize table / 2 < l →
      wrapL (lStepsize table) l = l - 360) ∧
    (180 - lStepsize table / 2 < 3599/10 →
      queryPoint table { s with l_deg := some (3599/10), b_deg := some b }
        = queryPoint table { s with l_deg := some (-1/10), b_deg := some b } ∧
      minDistArg table { s with l_deg := some (3599/10), b_deg := some b }
        = minDistArg table { s with l_deg := some (-1/10), b_deg := some b }) := by
  constructor
  · intro l hl
    simp [wrapL, hl]
  · intro h359
    have hq : queryPoint table { s with l_deg := some (3599/10), b_deg := some b }
        = queryPoint table { s with l_deg := some (-1/10), b_deg := some b } := by
      simp only [queryPoint, Option.getD_some]
      have h1 : wrapL (lStepsize table) (3599/10) = 3599/10 - 360 := by
        simp [wrapL, h359]
      have h2 : wrapL (lStepsize table) (-1/10) = -1/10 := by
        simp only [wrapL, if_neg (not_lt.mpr hcap)]
      rw [h1, h2]
      norm_num
    refine ⟨hq, ?_⟩
    simp only [minDistArg, hq]

/-- Reference grid for the C7 witness: longitudes 10 and 20, so
`l_stepsize = 10` and the wrap threshold is 175. -/
def tableC7w : List (List ℚ) := [[10, 0], [20, 0]]

/-- Witness for C7 (amended) at a concrete input: over `tableC7w` the queries
at longitudes 359.9 and -0.1 (latitude 0) share the query point and the
resolved row index. -/
theorem C7_witness :
    queryPoint tableC7w { initState with l_deg := some (3599/10), b_deg := some 0 }
      = queryPoint tableC7w { initState with l_deg := some (-1/10), b_deg := some 0 } ∧
    minDistArg tableC7w { initState with l_deg := some (3599/10), b_deg := some 0 }
      = minDistArg tableC7w { initState with l_deg := some (-1/10), b_deg := some 0 } :=
  (C7_wraparound tableC7w initState 0
      (by norm_num [lStepsize, tableC7w])).2
    (by norm_num [lStepsize, tableC7w])

/-- C8: uninitialized bootstrap.  While `l_deg` has never been set, the
nearest-neighbor search runs against the origin `(0, 0)` — not any
caller-supplied point — and `find_sightline` stores the (repaired) row whose
reference coordinates minimize the Euclidean distance to the origin (stated
via the squared distance `d2`, which the strictly monotone square root turns
into the same minimizer). -/
theorem C8_uninitialized_bootstrap (table : List (List ℚ)) (s : State)
    (hl : s.l_deg = none) :
    queryPoint table s = (0, 0) ∧
    (find_sightline table s).sightline
      = repair (table.getD (minDistArg table s) []) ∧
    ∀ j : ℕ, j < (allCoords table).length →
      d2 (0, 0) ((allCoords table).getD (minDistArg table s) (0, 0))
        ≤ d2 (0, 0) ((allCoords table).getD j (0, 0)) := by
  have hq : queryPoint table s = (0, 0) := by simp [queryPoint, hl]
  refine ⟨hq, rfl, ?_⟩
  intro j hj
  have hne : allCoords table ≠ [] := by
    intro h
    rw [h] at hj
    simp at hj
  have hm : minDistArg table s
      = idxMin ((allCoords table).map (fun c => d2 (0, 0) c)) := by
    simp only [minDistArg, hq]
  have hdlne : (allCoords table).map (fun c => d2 (0, 0) c) ≠ [] := by
    simpa using hne
  have hlen : ((allCoords table).map (fun c => d2 (0, 0) c)).length
      = (allCoords table).length := by simp
  have hil : idxMin ((allCoords table).map (fun c => d2 (0, 0) c))
      < (allCoords table).length := by
    have := (idxMin_spec _ hdlne).1
    omega
  have h1 := idxMin_is_min ((allCoords table).map (fun c => d2 (0, 0) c))
    hdlne j (by omega)
  rw [getD_map_d2 (0, 0) (allCoords table) _ hil (0, 0) 0,
      getD_map_d2 (0, 0) (allCoords table) j hj (0, 0) 0] at h1
  rw [hm]
  exact h1

/-- Reference grid for the C8 witness: coordinates `(3, 4)` and `(1, 1)`; the
second is closer to the origin. -/
def tableC8 : List (List ℚ) := [[3, 4], [1, 1]]

/-- Witness for C8 at a concrete input: with no sight line ever set, the
resolved row of `tableC8` is at least as close to the origin as row 0. -/
theorem C8_witness :
    d2 (0, 0) ((allCoords tableC8).getD (minDistArg tableC8 initState) (0, 0))
      ≤ d2 (0, 0) ((allCoords tableC8).getD 0 (0, 0)) :=
  (C8_uninitialized_bootstrap tableC8 initState rfl).2.2 0
    (by norm_num [allCoords, tableC8])

/-- Reference grid of the C1 scenario: sight lines at `(10, 0)` and `(20, 0)`
(so `l_stepsize = 10`), the profile of line 1 carrying the claim's bins
`(5, 0.1, 0.2, 0.01)` and `(10, 0.1, 0.5, 0.02)`. -/
def tableC1 : List (List ℚ) :=
  [[10, 0, 0, 0, 2, 5, 1/10, 2/10, 1/100, 10, 1/10, 5/10, 2/100],
   [20, 0, 0, 0, 2, 5, 1/10, 2/10, 1/100, 10, 1/10, 5/10, 2/100]]

/-- Counterexample to C1 as stated: in the claim's scenario the query at
distance 7 does NOT yield the cached pair `(0.2, 0.01)` — radius 7 resolves
to bin index 0 and the zero rule caches `(0, 0)`. -/
theorem C1_counterexample :
    ¬ ((update_extinction_in_map
          (update_line_of_sight tableC1 initState 11 (1/2)) 7 false).2.extinction_in_map
        = 2/10 ∧
       (update_extinction_in_map
          (update_line_of_sight tableC1 initState 11 (1/2)) 7 false).2.extinction_in_map_err
        = 1/100) := by
  norm_num [update_extinction_in_map, update_line_of_sight, init_sightline,
    find_sightline, minDistArg, allCoords, queryPoint, wrapL, lStepsize, d2,
    idxMin, listMin, repair, hasNegDiff, farEdges, strided4, digitize,
    resolveInd, tableC1, initState, List.getD, List.countP_cons]

/-- C1 (amended): end-to-end scenario.  Setting the sight line to
`(11.0, 0.5)` selects reference row 0 (line 1 in 1-based `getline` numbering,
the nearest sight line) and stores its profile; resolving extinction at
distance 7 then yields bin index 0 (5 <= 7 < 10), and — because the resolved
index 0 triggers the zero rule — the cached extinction value and error are
`(0, 0)`. -/
theorem C1_scenario :
    minDistArg tableC1 { initState with l_deg := some 11, b_deg := some (1/2) } = 0 ∧
    (update_line_of_sight tableC1 initState 11 (1/2)).sightline
      = tableC1.getD 0 [] ∧
    resolveInd (update_line_of_sight tableC1 initState 11 (1/2)) 7 = 0 ∧
    (update_extinction_in_map
      (update_line_of_sight tableC1 initState 11 (1/2)) 7 false).1 = 1 ∧
    (update_extinction_in_map
      (update_line_of_sight tableC1 initState 11 (1/2)) 7 false).2.radius_ind = 0 ∧
    (update_extinction_in_map
      (update_line_of_sight tableC1 initState 11 (1/2)) 7 false).2.extinction_in_map = 0 ∧
    (update_extinction_in_map
      (update_line_of_sight tableC1 initState 11 (1/2)) 7 false).2.extinction_in_map_err = 0 := by
  norm_num [update_extinction_in_map, update_line_of_sight, init_sightline,
    find_sightline, minDistArg, allCoords, queryPoint, wrapL, lStepsize, d2,
    idxMin, listMin, repair, hasNegDiff, farEdges, strided4, digitize,
    resolveInd, tableC1, initState, List.getD, List.countP_cons]

end Surot
